import Mathlib

/-!
Shallow embedding of the ecosystem simulation core in
`src/simulation/rust/src/lib.rs`.

Modelling conventions:

* `f32`/`f64` values are embedded as exact rationals (`ℚ`); the source never
  relies on rounding, and every claim is about exact arithmetic relations.
* The pseudorandom generator (`SmallRng`) is embedded as an abstract stream of
  uniform draws: a function `Nat → ℚ` plus a cursor.  Every call the source
  makes to `rng.gen::<f32>()` consumes one draw, in source order.  The internal
  update function of `SmallRng` is an external crate, so seeding is modelled as
  an arbitrary function `seedGen : Nat → Rng` from the 64-bit seed.
* `angle.cos()` / `angle.sin()` applied to `rng.gen::<f32>() * 2π` are embedded
  as an arbitrary function `trig : ℚ → ℚ × ℚ` from the raw draw to the unit
  direction; all theorems hold for every such function, hence for the real one.
* `HashMap<String, f32>` is embedded as an association list with first-match
  lookup (`alGetOpt`); the maps the source builds always have distinct keys.
* Rust `as u64` casts from a float are embedded by `f64ToU64`
  (saturating truncation toward zero), and `u64` multiplication wraps mod 2^64.
-/

/-- One stream of uniform pseudorandom draws plus a read cursor.  `next`
models one call to `rng.gen::<f32>()`. -/
structure Rng where
  stream : Nat → ℚ
  idx : Nat

def Rng.next (r : Rng) : ℚ × Rng :=
  (r.stream r.idx, ⟨r.stream, r.idx + 1⟩)

/-- Association list embedding of `HashMap<String, f32>`. -/
abbrev AL := List (String × ℚ)

/-- First-match lookup: `map.get(&k)`. -/
def alGetOpt : AL → String → Option ℚ
  | [], _ => none
  | (k', v) :: rest, k => if k' = k then some v else alGetOpt rest k

/-- `map.get(&k).unwrap_or(&0.0)`. -/
def alGet (m : AL) (k : String) : ℚ :=
  (alGetOpt m k).getD 0

/-- `*map.entry(k).or_insert(0.0) += 1.0`. -/
def alIncr : AL → String → AL
  | [], k => [(k, 1)]
  | (k', v) :: rest, k =>
    if k' = k then (k', v + 1) :: rest else (k', v) :: alIncr rest k

/-- `if let Some(c) = map.get_mut(&k) { *c -= 1.0; if *c <= 0.0 { map.remove(&k); } }`. -/
def alDecrRemove : AL → String → AL
  | [], _ => []
  | (k', v) :: rest, k =>
    if k' = k then (if v - 1 ≤ 0 then rest else (k', v - 1) :: rest)
    else (k', v) :: alDecrRemove rest k

/-- The keys of an association list. -/
def alKeys (m : AL) : List String :=
  m.map Prod.fst

/-- `fn clamp(value, min, max)` from the source. -/
def clamp (value min max : ℚ) : ℚ :=
  if value < min then min
  else if value > max then max
  else value

/-- `format!("organism-{}", n)`. -/
def mkId (n : Nat) : String :=
  "organism-" ++ toString n

/-- `struct Position` (`distance` is never called by the simulation core). -/
structure Position where
  x : ℚ
  y : ℚ
  z : ℚ
deriving DecidableEq

/-- `struct OrganismTraits`: the seven genes. -/
structure OrganismTraits where
  motility : ℚ
  photosynthesis : ℚ
  predation : ℚ
  defense : ℚ
  sensory : ℚ
  reproduction : ℚ
  metabolism : ℚ
deriving DecidableEq

/-- `OrganismTraits::new`: clamp every gene to [0, 1]. -/
def OrganismTraits.new (motility photosynthesis predation defense sensory
    reproduction metabolism : ℚ) : OrganismTraits where
  motility := clamp motility 0 1
  photosynthesis := clamp photosynthesis 0 1
  predation := clamp predation 0 1
  defense := clamp defense 0 1
  sensory := clamp sensory 0 1
  reproduction := clamp reproduction 0 1
  metabolism := clamp metabolism 0 1

/-- `fn mutate_trait(value, rng, action_weight)`: two draws, then clamp. -/
def mutate_trait (value : ℚ) (rng : Rng) (action_weight : ℚ) : ℚ × Rng :=
  let d1 := rng.next
  let mutation_amount := (d1.1 - 0.5) * 0.1
  let d2 := d1.2.next
  let biased_amount := mutation_amount + action_weight * 0.05 * d2.1
  (clamp (value + biased_amount) 0 1, d2.2)

/-- `OrganismTraits::mutate`: mutate the seven genes in declaration order,
threading the generator. -/
def OrganismTraits.mutate (t : OrganismTraits) (rng : Rng) (action_weights : AL) :
    OrganismTraits × Rng :=
  let m1 := mutate_trait t.motility rng (alGet action_weights "motility")
  let m2 := mutate_trait t.photosynthesis m1.2 (alGet action_weights "photosynthesis")
  let m3 := mutate_trait t.predation m2.2 (alGet action_weights "predation")
  let m4 := mutate_trait t.defense m3.2 (alGet action_weights "defense")
  let m5 := mutate_trait t.sensory m4.2 (alGet action_weights "sensory")
  let m6 := mutate_trait t.reproduction m5.2 (alGet action_weights "reproduction")
  let m7 := mutate_trait t.metabolism m6.2 (alGet action_weights "metabolism")
  (⟨m1.1, m2.1, m3.1, m4.1, m5.1, m6.1, m7.1⟩, m7.2)

/-- `struct Organism`. -/
structure Organism where
  id : String
  position : Position
  size : ℚ
  traits : OrganismTraits
  energy : ℚ
  age : Nat
  generation : Nat
  parent_id : Option String
  action_records : List String
  action_weights : AL
deriving DecidableEq

/-- `Organism::new`: the size floor `size.max(0.1)` is applied here, and the
age, action history and weight map start at zero / empty. -/
def Organism.new (id : String) (position : Position) (size : ℚ)
    (traits : OrganismTraits) (energy : ℚ) (generation : Nat)
    (parent_id : Option String) : Organism where
  id := id
  position := position
  size := max size 0.1
  traits := traits
  energy := energy
  age := 0
  generation := generation
  parent_id := parent_id
  action_records := []
  action_weights := []

/-- `Organism::record_action`: append, bump the weight, and once the history
exceeds 20 entries evict the oldest and decrement (possibly drop) its weight. -/
def Organism.record_action (o : Organism) (action : String) : Organism :=
  let recs := o.action_records ++ [action]
  let w := alIncr o.action_weights action
  if recs.length > 20 then
    { o with
      action_records := recs.tail
      action_weights :=
        match recs.head? with
        | some removed => alDecrRemove w removed
        | none => w }
  else
    { o with action_records := recs, action_weights := w }

/-- `Organism::move_organism`: no-op below the 0.05 motility threshold,
otherwise one draw for the direction, an x/z displacement, an energy cost and
a "moved" record.  `trig` stands for `u ↦ (cos(2πu), sin(2πu))`. -/
def Organism.move_organism (trig : ℚ → ℚ × ℚ) (o : Organism) (rng : Rng) :
    Organism × Rng :=
  if o.traits.motility < 0.05 then (o, rng)
  else
    let move_distance := o.traits.motility * (1 / o.size) * 0.5
    let d := rng.next
    let dir := trig d.1
    let moved :=
      { o with
        position :=
          { o.position with
            x := o.position.x + dir.1 * move_distance
            z := o.position.z + dir.2 * move_distance }
        energy := o.energy - move_distance * o.size * 2 }
    (moved.record_action "moved", d.2)

/-- `Organism::process_photosynthesis`. -/
def Organism.process_photosynthesis (o : Organism) (light_level : ℚ) : Organism :=
  if o.traits.photosynthesis < 0.05 then o
  else
    let gained :=
      { o with energy := o.energy + o.traits.photosynthesis * light_level * o.size * 5 }
    gained.record_action "photosynthesis"

/-- `Organism::can_reproduce`. -/
def Organism.can_reproduce (o : Organism) : Bool :=
  decide (50 ≤ o.energy) && decide (0.2 ≤ o.traits.reproduction)

/-- `Organism::reproduction_chance`. -/
def Organism.reproduction_chance (o : Organism) : ℚ :=
  o.traits.reproduction * (o.energy / 200)

/-- `struct Resources`. -/
structure Resources where
  organic : ℚ
  minerals : ℚ
  light : ℚ
deriving DecidableEq

/-- `struct Environment`. -/
structure Environment where
  temperature : ℚ
  light_level : ℚ
  moisture : ℚ
  resources : Resources
deriving DecidableEq

/-- `Environment::new`: ambient conditions clamped to [0, 1], resources kept
as given. -/
def Environment.new (temperature light_level moisture organic minerals light : ℚ) :
    Environment where
  temperature := clamp temperature 0 1
  light_level := clamp light_level 0 1
  moisture := clamp moisture 0 1
  resources := { organic := organic, minerals := minerals, light := light }

/-- `struct Simulation`. -/
structure Simulation where
  organisms : List Organism
  environment : Environment
  rng : Rng
  next_id : Nat

/-- Rust `expr as u64` on a float: saturating truncation toward zero. -/
def f64ToU64 (x : ℚ) : Nat :=
  if x < 0 then 0 else min (2 ^ 64 - 1) ⌊x⌋.toNat

/-- The seed expression of `Simulation::new`:
`Math::random() as u64 * 9999999.0 as u64`, in which the casts bind tighter
than the multiplication, with `u64` multiplication wrapping mod 2^64. -/
def seedFromEntropy (entropy : ℚ) : Nat :=
  (f64ToU64 entropy * f64ToU64 9999999) % 2 ^ 64

/-- `Simulation::new`: fixed resources, the generator seeded through
`seedFromEntropy` from the host `Math::random()` value, empty population and
id counter 0.  `seedGen` abstracts `SmallRng::seed_from_u64`. -/
def Simulation.new (seedGen : Nat → Rng) (entropy : ℚ)
    (env_temperature env_light env_moisture : ℚ) : Simulation where
  organisms := []
  environment := Environment.new env_temperature env_light env_moisture 100 100 100
  rng := seedGen (seedFromEntropy entropy)
  next_id := 0

/-- `Simulation::create_initial_organism` (returning the stored snapshot as
the second component). -/
def Simulation.create_initial_organism (s : Simulation)
    (motility photosynthesis size : ℚ) : Simulation × Organism :=
  let traits := OrganismTraits.new motility photosynthesis 0.1 0.1 0.1 0.5 0.5
  let organism :=
    Organism.new (mkId s.next_id) ⟨0, 0, 0⟩ size traits 100 0 none
  ({ s with
      organisms := s.organisms ++ [organism]
      next_id := s.next_id + 1 },
    organism)

/-- Age increment followed by the base metabolism deduction (steps 2 and 3 of
the per-organism pipeline; no randomness is consumed). -/
def stepMetabolism (org : Organism) : Organism :=
  { org with
    age := org.age + 1
    energy := org.energy - org.traits.metabolism * org.size }

/-- The organism and generator after the movement step (step 4), applied to
the post-metabolism organism. -/
def afterMove (trig : ℚ → ℚ × ℚ) (org : Organism) (rng : Rng) : Organism × Rng :=
  Organism.move_organism trig (stepMetabolism org) rng

/-- The organism after the photosynthesis step (step 5). -/
def afterPhoto (trig : ℚ → ℚ × ℚ) (env : Environment) (org : Organism)
    (rng : Rng) : Organism :=
  Organism.process_photosynthesis (afterMove trig org rng).1 env.light_level

/-- The normalized action-frequency map built just before mutation in
`simulate_generation`: raw counts divided by the history length when the
history is nonempty. -/
def normalizeWeights (records : List String) : AL :=
  let counts := records.foldl (fun m a => alIncr m a) []
  if (records.length : ℚ) > 0 then
    counts.map fun p => (p.1, p.2 / (records.length : ℚ))
  else counts

/-- The reproduction event of `simulate_generation`: mutate the traits from
the normalized history (14 draws), then draw the x jitter, the z jitter and
the size factor, build the offspring through `Organism::new`, cut the parent
to 70% energy and record "reproduced".  Returns (offspring, parent, rng). -/
def reproduce (o4 : Organism) (r2 : Rng) (nid : Nat) : Organism × Organism × Rng :=
  let w := normalizeWeights o4.action_records
  let mres := o4.traits.mutate r2 w
  let d1 := mres.2.next
  let d2 := d1.2.next
  let d3 := d2.2.next
  let off :=
    Organism.new (mkId nid)
      ⟨o4.position.x + (d1.1 - 0.5) * 0.5, o4.position.y,
        o4.position.z + (d2.1 - 0.5) * 0.5⟩
      (o4.size * (0.8 + d3.1 * 0.4))
      mres.1
      (o4.energy * 0.3)
      (o4.generation + 1)
      (some o4.id)
  let par := Organism.record_action { o4 with energy := o4.energy * 0.7 } "reproduced"
  (off, par, d3.2)

/-- The body of the `for organism in &mut self.organisms` loop of
`simulate_generation` for one organism: the list of organisms it contributes
to the next generation, plus the updated generator and id counter. -/
def processOrganism (trig : ℚ → ℚ × ℚ) (env : Environment) (org : Organism)
    (rng : Rng) (nid : Nat) : List Organism × Rng × Nat :=
  if org.energy ≤ 0 then ([], rng, nid)
  else if (stepMetabolism org).energy ≤ 0 then ([], rng, nid)
  else
    let mv := afterMove trig org rng
    if mv.1.energy ≤ 0 then ([], mv.2, nid)
    else
      let o4 := Organism.process_photosynthesis mv.1 env.light_level
      if o4.can_reproduce then
        let d := mv.2.next
        if d.1 < o4.reproduction_chance then
          let rep := reproduce o4 d.2 nid
          ([rep.1, rep.2.1], rep.2.2, nid + 1)
        else ([o4], d.2, nid)
      else ([o4], mv.2, nid)

/-- The whole loop of `simulate_generation`: one sequential pass, threading
the generator and the id counter. -/
def processAll (trig : ℚ → ℚ × ℚ) (env : Environment) :
    List Organism → Rng → Nat → List Organism × Rng × Nat
  | [], rng, nid => ([], rng, nid)
  | org :: rest, rng, nid =>
    let head := processOrganism trig env org rng nid
    let tail := processAll trig env rest head.2.1 head.2.2
    (head.1 ++ tail.1, tail.2)

/-- `Simulation::simulate_generation`: replace the population with the next
generation built by the pass. -/
def Simulation.simulate_generation (trig : ℚ → ℚ × ℚ) (s : Simulation) : Simulation :=
  let res := processAll trig s.environment s.organisms s.rng s.next_id
  { s with organisms := res.1, rng := res.2.1, next_id := res.2.2 }

/-- `Simulation::fast_forward`: `for _ in 0..generations { self.simulate_generation(); }`. -/
def Simulation.fast_forward (trig : ℚ → ℚ × ℚ) : Simulation → Nat → Simulation
  | s, 0 => s
  | s, n + 1 => Simulation.fast_forward trig (Simulation.simulate_generation trig s) n

/-- `Simulation::get_organism_count`. -/
def Simulation.get_organism_count (s : Simulation) : Nat :=
  s.organisms.length

/-- Spec-side predicate: all seven genes lie in [0, 1]. -/
def traitsInRange (t : OrganismTraits) : Prop :=
  (0 ≤ t.motility ∧ t.motility ≤ 1) ∧
  (0 ≤ t.photosynthesis ∧ t.photosynthesis ≤ 1) ∧
  (0 ≤ t.predation ∧ t.predation ≤ 1) ∧
  (0 ≤ t.defense ∧ t.defense ≤ 1) ∧
  (0 ≤ t.sensory ∧ t.sensory ≤ 1) ∧
  (0 ≤ t.reproduction ∧ t.reproduction ≤ 1) ∧
  (0 ≤ t.metabolism ∧ t.metabolism ≤ 1)

/-- Spec-side predicate: the weight map holds exactly the multiset counts of
the history window — a present key maps to its positive count, an absent key
has count zero. -/
def weightsMatch (recs : List String) (w : AL) : Prop :=
  ∀ k, alGetOpt w k =
    if recs.count k = 0 then none else some (recs.count k : ℚ)

/-- A concrete direction function for witnesses. -/
def trig0 : ℚ → ℚ × ℚ := fun _ => (1, 0)

/-- A concrete all-zero draw stream for witnesses. -/
def rng0 : Rng := ⟨fun _ => 0, 0⟩

/-- A concrete seeding function for witnesses. -/
def seedGen0 : Nat → Rng := fun sd => ⟨fun _ => (sd : ℚ), 0⟩

/-- A concrete environment for witnesses (light level 0). -/
def env0 : Environment := Environment.new 0.5 0 0.5 100 100 100

/-- A minimum-size parent certain to reproduce: motility and photosynthesis
0, reproduction 1, metabolism 0, energy 200. -/
def parentTiny : Organism where
  id := "organism-0"
  position := ⟨0, 0, 0⟩
  size := 0.1
  traits := ⟨0, 0, 0, 0, 0, 1, 0⟩
  energy := 200
  age := 0
  generation := 0
  parent_id := none
  action_records := []
  action_weights := []

/-- A one-organism simulation around `parentTiny`. -/
def simTiny : Simulation where
  organisms := [parentTiny]
  environment := env0
  rng := rng0
  next_id := 1

/-- A unit-size parent certain to reproduce, matching the worked example of
the spec: energy 200, reproduction 1, metabolism 0, motility 0. -/
def parentRich : Organism where
  id := "organism-7"
  position := ⟨0, 0, 0⟩
  size := 1
  traits := ⟨0, 0, 0.1, 0.1, 0.1, 1, 0⟩
  energy := 200
  age := 3
  generation := 2
  parent_id := none
  action_records := []
  action_weights := []

/-- An organism that survives the pipeline and cannot reproduce
(reproduction 0), losing half an energy unit to metabolism. -/
def survivor : Organism where
  id := "organism-0"
  position := ⟨0, 0, 0⟩
  size := 1
  traits := ⟨0, 0, 0, 0, 0, 0, 0.5⟩
  energy := 100
  age := 0
  generation := 0
  parent_id := none
  action_records := []
  action_weights := []

/-- A one-organism simulation around `survivor`. -/
def simSurvivor : Simulation where
  organisms := [survivor]
  environment := env0
  rng := rng0
  next_id := 1

/-- `survivor` after one generation: age 1 and the metabolism cost paid. -/
def survivorAfter : Organism :=
  { survivor with age := 1, energy := 199 / 2 }

/-! ## Helper lemmas -/

theorem clamp_mem (value lo hi : ℚ) (h : lo ≤ hi) :
    lo ≤ clamp value lo hi ∧ clamp value lo hi ≤ hi := by
  unfold clamp
  split
  · exact ⟨le_rfl, h⟩
  · split
    · exact ⟨h, le_rfl⟩
    · next h1 h2 => exact ⟨not_lt.mp h1, not_lt.mp h2⟩

@[simp] theorem record_action_id (o : Organism) (a : String) :
    (o.record_action a).id = o.id := by
  simp only [Organism.record_action]
  split <;> rfl

@[simp] theorem record_action_position (o : Organism) (a : String) :
    (o.record_action a).position = o.position := by
  simp only [Organism.record_action]
  split <;> rfl

@[simp] theorem record_action_size (o : Organism) (a : String) :
    (o.record_action a).size = o.size := by
  simp only [Organism.record_action]
  split <;> rfl

@[simp] theorem record_action_traits (o : Organism) (a : String) :
    (o.record_action a).traits = o.traits := by
  simp only [Organism.record_action]
  split <;> rfl

@[simp] theorem record_action_energy (o : Organism) (a : String) :
    (o.record_action a).energy = o.energy := by
  simp only [Organism.record_action]
  split <;> rfl

@[simp] theorem record_action_age (o : Organism) (a : String) :
    (o.record_action a).age = o.age := by
  simp only [Organism.record_action]
  split <;> rfl

@[simp] theorem record_action_generation (o : Organism) (a : String) :
    (o.record_action a).generation = o.generation := by
  simp only [Organism.record_action]
  split <;> rfl

@[simp] theorem record_action_parent_id (o : Organism) (a : String) :
    (o.record_action a).parent_id = o.parent_id := by
  simp only [Organism.record_action]
  split <;> rfl

@[simp] theorem move_organism_id (trig : ℚ → ℚ × ℚ) (o : Organism) (rng : Rng) :
    (Organism.move_organism trig o rng).1.id = o.id := by
  simp only [Organism.move_organism]
  split <;> simp

@[simp] theorem move_organism_generation (trig : ℚ → ℚ × ℚ) (o : Organism) (rng : Rng) :
    (Organism.move_organism trig o rng).1.generation = o.generation := by
  simp only [Organism.move_organism]
  split <;> simp

@[simp] theorem move_organism_size (trig : ℚ → ℚ × ℚ) (o : Organism) (rng : Rng) :
    (Organism.move_organism trig o rng).1.size = o.size := by
  simp only [Organism.move_organism]
  split <;> simp

@[simp] theorem photosynthesis_id (o : Organism) (l : ℚ) :
    (o.process_photosynthesis l).id = o.id := by
  simp only [Organism.process_photosynthesis]
  split <;> simp

@[simp] theorem photosynthesis_generation (o : Organism) (l : ℚ) :
    (o.process_photosynthesis l).generation = o.generation := by
  simp only [Organism.process_photosynthesis]
  split <;> simp

@[simp] theorem photosynthesis_size (o : Organism) (l : ℚ) :
    (o.process_photosynthesis l).size = o.size := by
  simp only [Organism.process_photosynthesis]
  split <;> simp

@[simp] theorem afterPhoto_id (trig : ℚ → ℚ × ℚ) (env : Environment)
    (org : Organism) (rng : Rng) : (afterPhoto trig env org rng).id = org.id := by
  simp [afterPhoto, afterMove, stepMetabolism]

@[simp] theorem afterPhoto_generation (trig : ℚ → ℚ × ℚ) (env : Environment)
    (org : Organism) (rng : Rng) :
    (afterPhoto trig env org rng).generation = org.generation := by
  simp [afterPhoto, afterMove, stepMetabolism]

theorem record_action_getLast (o : Organism) (a : String) :
    (o.record_action a).action_records.getLast? = some a := by
  simp only [Organism.record_action]
  split
  · next hc =>
      rcases hrec : o.action_records with _ | ⟨b, l⟩
      · rw [hrec] at hc; simp at hc
      · simp [List.getLast?_concat]
  · simp [List.getLast?_concat]

/-- A pipeline checkpoint observed energy ≤ 0: the organism contributes
nothing to the next generation. -/
theorem processOrganism_dead (trig : ℚ → ℚ × ℚ) (env : Environment)
    (org : Organism) (rng : Rng) (nid : Nat)
    (h : org.energy ≤ 0 ∨ (stepMetabolism org).energy ≤ 0 ∨
      (afterMove trig org rng).1.energy ≤ 0) :
    (processOrganism trig env org rng nid).1 = [] := by
  unfold processOrganism
  by_cases h0 : org.energy ≤ 0
  · rw [if_pos h0]
  · rw [if_neg h0]
    by_cases h1 : (stepMetabolism org).energy ≤ 0
    · rw [if_pos h1]
    · rw [if_neg h1]
      dsimp only
      have h2 : (afterMove trig org rng).1.energy ≤ 0 := by tauto
      rw [if_pos h2]

/-- All three checkpoints pass: what the pipeline evaluates to, in terms of
the stage functions. -/
theorem processOrganism_alive (trig : ℚ → ℚ × ℚ) (env : Environment)
    (org : Organism) (rng : Rng) (nid : Nat)
    (h0 : ¬org.energy ≤ 0) (h1 : ¬(stepMetabolism org).energy ≤ 0)
    (h2 : ¬(afterMove trig org rng).1.energy ≤ 0) :
    processOrganism trig env org rng nid =
      if (afterPhoto trig env org rng).can_reproduce then
        if (afterMove trig org rng).2.next.1 <
            (afterPhoto trig env org rng).reproduction_chance then
          ([(reproduce (afterPhoto trig env org rng) (afterMove trig org rng).2.next.2 nid).1,
            (reproduce (afterPhoto trig env org rng) (afterMove trig org rng).2.next.2 nid).2.1],
            (reproduce (afterPhoto trig env org rng) (afterMove trig org rng).2.next.2 nid).2.2,
            nid + 1)
        else ([afterPhoto trig env org rng], (afterMove trig org rng).2.next.2, nid)
      else ([afterPhoto trig env org rng], (afterMove trig org rng).2, nid) := by
  unfold processOrganism
  rw [if_neg h0, if_neg h1]
  dsimp only
  rw [if_neg h2]
  rfl

/-- Every organism of the pass output comes from processing some organism of
the input list. -/
theorem processAll_mem (trig : ℚ → ℚ × ℚ) (env : Environment) :
    ∀ (l : List Organism) (rng : Rng) (nid : Nat) (o : Organism),
      o ∈ (processAll trig env l rng nid).1 →
      ∃ p r n, p ∈ l ∧ o ∈ (processOrganism trig env p r n).1 := by
  intro l
  induction l with
  | nil => intro rng nid o h; simp [processAll] at h
  | cons head rest ih =>
    intro rng nid o h
    simp only [processAll] at h
    rw [List.mem_append] at h
    rcases h with h | h
    · exact ⟨head, rng, nid, List.mem_cons_self head rest, h⟩
    · obtain ⟨p, r, n, hp, hop⟩ := ih _ _ _ h
      exact ⟨p, r, n, List.mem_cons_of_mem head hp, hop⟩

theorem alIncr_cons_self (k : String) (v : ℚ) (rest : AL) :
    alIncr ((k, v) :: rest) k = (k, v + 1) :: rest := by
  simp [alIncr]

theorem alIncr_cons_ne (k a : String) (v : ℚ) (rest : AL) (h : ¬k = a) :
    alIncr ((k, v) :: rest) a = (k, v) :: alIncr rest a := by
  simp [alIncr, h]

theorem alGetOpt_cons_self (k : String) (v : ℚ) (rest : AL) :
    alGetOpt ((k, v) :: rest) k = some v := by
  simp [alGetOpt]

theorem alGetOpt_cons_ne (k a : String) (v : ℚ) (rest : AL) (h : ¬k = a) :
    alGetOpt ((k, v) :: rest) a = alGetOpt rest a := by
  simp [alGetOpt, h]

theorem alDecrRemove_cons_self (k : String) (v : ℚ) (rest : AL) :
    alDecrRemove ((k, v) :: rest) k =
      if v - 1 ≤ 0 then rest else (k, v - 1) :: rest := by
  simp [alDecrRemove]

theorem alDecrRemove_cons_ne (k a : String) (v : ℚ) (rest : AL) (h : ¬k = a) :
    alDecrRemove ((k, v) :: rest) a = (k, v) :: alDecrRemove rest a := by
  simp [alDecrRemove, h]

theorem alGetOpt_eq_none (m : AL) (k : String) :
    alGetOpt m k = none ↔ k ∉ alKeys m := by
  induction m with
  | nil => simp [alGetOpt, alKeys]
  | cons p rest ih =>
    obtain ⟨k', v⟩ := p
    by_cases h : k' = k
    · subst h; simp [alGetOpt_cons_self, alKeys]
    · rw [alGetOpt_cons_ne k' k v rest h]
      simp only [alKeys, List.map_cons, List.mem_cons]
      rw [ih]
      constructor
      · intro hk hor
        rcases hor with hor | hor
        · exact h hor.symm
        · exact hk hor
      · intro hk
        exact fun hm => hk (Or.inr hm)

theorem alGetOpt_alIncr_self (m : AL) (a : String) :
    alGetOpt (alIncr m a) a = some ((alGetOpt m a).getD 0 + 1) := by
  induction m with
  | nil => simp [alIncr, alGetOpt]
  | cons p rest ih =>
    obtain ⟨k', v⟩ := p
    by_cases h : k' = a
    · subst h
      rw [alIncr_cons_self, alGetOpt_cons_self, alGetOpt_cons_self]
      rfl
    · rw [alIncr_cons_ne k' a v rest h, alGetOpt_cons_ne k' a v _ h,
        alGetOpt_cons_ne k' a v rest h]
      exact ih

theorem alGetOpt_alIncr_ne (m : AL) (k a : String) (h : k ≠ a) :
    alGetOpt (alIncr m a) k = alGetOpt m k := by
  induction m with
  | nil => simp [alIncr, alGetOpt, Ne.symm h]
  | cons p rest ih =>
    obtain ⟨k', v⟩ := p
    by_cases h2 : k' = a
    · subst h2
      have hne : ¬k' = k := fun hh => h (hh ▸ rfl)
      rw [alIncr_cons_self, alGetOpt_cons_ne k' k (v + 1) rest hne,
        alGetOpt_cons_ne k' k v rest hne]
    · rw [alIncr_cons_ne k' a v rest h2]
      by_cases h3 : k' = k
      · subst h3; rw [alGetOpt_cons_self, alGetOpt_cons_self]
      · rw [alGetOpt_cons_ne k' k v _ h3, alGetOpt_cons_ne k' k v rest h3]
        exact ih

theorem mem_alKeys_alIncr (m : AL) (a x : String)
    (h : x ∈ alKeys (alIncr m a)) : x ∈ alKeys m ∨ x = a := by
  induction m with
  | nil => simpa [alIncr, alKeys] using h
  | cons p rest ih =>
    obtain ⟨k', v⟩ := p
    by_cases h2 : k' = a
    · subst h2
      rw [alIncr_cons_self] at h
      exact Or.inl h
    · rw [alIncr_cons_ne k' a v rest h2] at h
      simp only [alKeys, List.map_cons, List.mem_cons] at h ⊢
      rcases h with h | h
      · exact Or.inl (Or.inl h)
      · rcases ih h with h | h
        · exact Or.inl (Or.inr h)
        · exact Or.inr h

theorem nodup_alKeys_alIncr (m : AL) (a : String) (h : (alKeys m).Nodup) :
    (alKeys (alIncr m a)).Nodup := by
  induction m with
  | nil => simp [alIncr, alKeys]
  | cons p rest ih =>
    obtain ⟨k', v⟩ := p
    simp only [alKeys, List.map_cons, List.nodup_cons] at h
    by_cases h2 : k' = a
    · subst h2
      rw [alIncr_cons_self]
      simpa [alKeys, List.nodup_cons] using h
    · rw [alIncr_cons_ne k' a v rest h2]
      simp only [alKeys, List.map_cons, List.nodup_cons]
      refine ⟨fun hx => ?_, ih h.2⟩
      rcases mem_alKeys_alIncr rest a k' hx with hm | he
      · exact h.1 hm
      · exact h2 he

theorem alGetOpt_alDecrRemove_self (m : AL) (a : String)
    (h : (alKeys m).Nodup) :
    alGetOpt (alDecrRemove m a) a =
      (alGetOpt m a).bind fun v => if v - 1 ≤ 0 then none else some (v - 1) := by
  induction m with
  | nil => simp [alDecrRemove, alGetOpt]
  | cons p rest ih =>
    obtain ⟨k', v⟩ := p
    simp only [alKeys, List.map_cons, List.nodup_cons] at h
    by_cases h2 : k' = a
    · subst h2
      rw [alDecrRemove_cons_self, alGetOpt_cons_self, Option.some_bind]
      by_cases hv : v - 1 ≤ 0
      · rw [if_pos hv, if_pos hv]
        exact (alGetOpt_eq_none rest k').mpr h.1
      · rw [if_neg hv, if_neg hv, alGetOpt_cons_self]
    · rw [alDecrRemove_cons_ne k' a v rest h2, alGetOpt_cons_ne k' a v _ h2,
        alGetOpt_cons_ne k' a v rest h2]
      exact ih h.2

theorem alGetOpt_alDecrRemove_ne (m : AL) (k a : String) (h : k ≠ a) :
    alGetOpt (alDecrRemove m a) k = alGetOpt m k := by
  induction m with
  | nil => rfl
  | cons p rest ih =>
    obtain ⟨k', v⟩ := p
    by_cases h2 : k' = a
    · subst h2
      have hne : ¬k' = k := fun hh => h (hh ▸ rfl)
      rw [alDecrRemove_cons_self]
      by_cases hv : v - 1 ≤ 0
      · rw [if_pos hv, alGetOpt_cons_ne k' k v rest hne]
      · rw [if_neg hv, alGetOpt_cons_ne k' k (v - 1) rest hne,
          alGetOpt_cons_ne k' k v rest hne]
    · rw [alDecrRemove_cons_ne k' a v rest h2]
      by_cases h3 : k' = k
      · subst h3; rw [alGetOpt_cons_self, alGetOpt_cons_self]
      · rw [alGetOpt_cons_ne k' k v _ h3, alGetOpt_cons_ne k' k v rest h3]
        exact ih

theorem alKeys_alDecrRemove_sublist (m : AL) (a : String) :
    List.Sublist (alKeys (alDecrRemove m a)) (alKeys m) := by
  induction m with
  | nil => simp [alDecrRemove]
  | cons p rest ih =>
    obtain ⟨k', v⟩ := p
    by_cases h2 : k' = a
    · subst h2
      rw [alDecrRemove_cons_self]
      by_cases hv : v - 1 ≤ 0
      · rw [if_pos hv]
        exact (List.Sublist.refl _).cons _
      · rw [if_neg hv]
        exact (List.Sublist.refl _).cons₂ _
    · rw [alDecrRemove_cons_ne k' a v rest h2]
      simp only [alKeys, List.map_cons]
      exact ih.cons₂ _

theorem nodup_alKeys_alDecrRemove (m : AL) (a : String)
    (h : (alKeys m).Nodup) : (alKeys (alDecrRemove m a)).Nodup :=
  h.sublist (alKeys_alDecrRemove_sublist m a)

theorem record_action_records_eq (o : Organism) (a : String) :
    (o.record_action a).action_records =
      if (o.action_records ++ [a]).length > 20 then (o.action_records ++ [a]).tail
      else o.action_records ++ [a] := by
  simp only [Organism.record_action]
  split <;> rfl

theorem record_action_weights_eq (o : Organism) (a : String) :
    (o.record_action a).action_weights =
      if (o.action_records ++ [a]).length > 20 then
        match (o.action_records ++ [a]).head? with
        | some removed => alDecrRemove (alIncr o.action_weights a) removed
        | none => alIncr o.action_weights a
      else alIncr o.action_weights a := by
  simp only [Organism.record_action]
  split <;> rfl

theorem weightsMatch_alIncr (recs : List String) (w : AL) (a : String)
    (hm : weightsMatch recs w) : weightsMatch (recs ++ [a]) (alIncr w a) := by
  intro k
  by_cases hk : k = a
  · subst hk
    rw [alGetOpt_alIncr_self, List.count_append]
    have hone : [k].count k = 1 := by simp
    rw [hone]
    have hw := hm k
    by_cases hc : recs.count k = 0
    · rw [if_pos hc] at hw
      rw [hw, hc]
      norm_num
    · rw [if_neg hc] at hw
      rw [hw]
      have hne : ¬recs.count k + 1 = 0 := by omega
      rw [if_neg hne, Option.getD_some]
      exact congrArg some (by push_cast; ring)
  · have hcnt : (recs ++ [a]).count k = recs.count k := by
      rw [List.count_append]
      simp [List.count_cons, hk]
    rw [alGetOpt_alIncr_ne w k a hk, hcnt]
    exact hm k

theorem weightsMatch_evict (r : String) (rest : List String) (w : AL)
    (hw : (alKeys w).Nodup) (hm : weightsMatch (r :: rest) w) :
    weightsMatch rest (alDecrRemove w r) := by
  intro k
  by_cases hk : k = r
  · subst hk
    rw [alGetOpt_alDecrRemove_self w k hw]
    have hv := hm k
    rw [List.count_cons_self] at hv
    have hne : ¬rest.count k + 1 = 0 := by omega
    rw [if_neg hne] at hv
    rw [hv, Option.some_bind]
    have hcast : ((rest.count k + 1 : ℕ) : ℚ) - 1 = (rest.count k : ℚ) := by
      push_cast; ring
    rw [hcast]
    by_cases hc : rest.count k = 0
    · rw [if_pos hc, hc]
      norm_num
    · have hpos : ¬((rest.count k : ℚ) ≤ 0) :=
        not_le.mpr (by exact_mod_cast Nat.pos_of_ne_zero hc)
      rw [if_neg hpos, if_neg hc]
  · rw [alGetOpt_alDecrRemove_ne w k r hk]
    have hv := hm k
    rw [List.count_cons_of_ne hk] at hv
    exact hv

theorem record_action_inv (o : Organism) (a : String)
    (h1 : (alKeys o.action_weights).Nodup)
    (h2 : weightsMatch o.action_records o.action_weights)
    (h3 : o.action_records.length ≤ 20) :
    (alKeys (o.record_action a).action_weights).Nodup ∧
    weightsMatch (o.record_action a).action_records
      (o.record_action a).action_weights ∧
    (o.record_action a).action_records.length ≤ 20 := by
  have hmi := weightsMatch_alIncr o.action_records o.action_weights a h2
  have hni := nodup_alKeys_alIncr o.action_weights a h1
  rw [record_action_records_eq, record_action_weights_eq]
  by_cases hc : (o.action_records ++ [a]).length > 20
  · rw [if_pos hc, if_pos hc]
    have hne : o.action_records ≠ [] := by
      intro hnil
      rw [hnil] at hc
      simp at hc
    obtain ⟨b, l, hbl⟩ := List.exists_cons_of_ne_nil hne
    rw [hbl] at hmi h3 ⊢
    simp only [List.cons_append, List.head?_cons, List.tail_cons]
    refine ⟨nodup_alKeys_alDecrRemove _ _ hni, ?_, ?_⟩
    · exact weightsMatch_evict b (l ++ [a]) (alIncr o.action_weights a) hni
        (by simpa [List.cons_append] using hmi)
    · simp only [List.length_append, List.length_cons, List.length_nil] at h3 ⊢
      omega
  · rw [if_neg hc, if_neg hc]
    exact ⟨hni, hmi, by omega⟩

theorem foldl_record_action_inv (actions : List String) :
    ∀ o : Organism,
      (alKeys o.action_weights).Nodup →
      weightsMatch o.action_records o.action_weights →
      o.action_records.length ≤ 20 →
      (alKeys (actions.foldl Organism.record_action o).action_weights).Nodup ∧
      weightsMatch (actions.foldl Organism.record_action o).action_records
        (actions.foldl Organism.record_action o).action_weights ∧
      (actions.foldl Organism.record_action o).action_records.length ≤ 20 := by
  induction actions with
  | nil => exact fun o h1 h2 h3 => ⟨h1, h2, h3⟩
  | cons a as ih =>
    intro o h1 h2 h3
    obtain ⟨g1, g2, g3⟩ := record_action_inv o a h1 h2 h3
    exact ih _ g1 g2 g3

theorem foldl_record_action_suffix (actions : List String) :
    ∀ o : Organism, o.action_records.length ≤ 20 →
      (actions.foldl Organism.record_action o).action_records =
        (o.action_records ++ actions).drop
          ((o.action_records ++ actions).length - 20) := by
  induction actions with
  | nil =>
    intro o h
    simp only [List.foldl_nil, List.append_nil]
    rw [Nat.sub_eq_zero_of_le h, List.drop_zero]
  | cons a as ih =>
    intro o h
    have hrec := record_action_records_eq o a
    by_cases hc : (o.action_records ++ [a]).length > 20
    · rw [if_pos hc] at hrec
      have hne : o.action_records ≠ [] := by
        intro hnil
        rw [hnil] at hc
        simp at hc
      obtain ⟨b, l, hbl⟩ := List.exists_cons_of_ne_nil hne
      have hl : l.length = 19 := by
        rw [hbl] at h hc
        simp only [List.length_append, List.length_cons, List.length_nil] at h hc
        omega
      have hlen2 : (o.record_action a).action_records.length ≤ 20 := by
        rw [hrec, hbl]
        simp only [List.cons_append, List.tail_cons, List.length_append,
          List.length_cons, List.length_nil, hl]
        omega
      have step := ih (o.record_action a) hlen2
      show (as.foldl Organism.record_action (o.record_action a)).action_records = _
      rw [step, hrec, hbl]
      simp only [List.cons_append, List.tail_cons]
      rw [List.append_assoc l [a] as, List.singleton_append]
      have h20 : 20 ≤ (l ++ a :: as).length := by
        simp only [List.length_append, List.length_cons, hl]
        omega
      simp only [List.length_cons]
      rw [show (l ++ a :: as).length + 1 - 20 = ((l ++ a :: as).length - 20) + 1 by omega,
        List.drop_succ_cons]
    · rw [if_neg hc] at hrec
      have hlen2 : (o.record_action a).action_records.length ≤ 20 := by
        rw [hrec]; omega
      have step := ih (o.record_action a) hlen2
      show (as.foldl Organism.record_action (o.record_action a)).action_records = _
      rw [step, hrec,
        show o.action_records ++ a :: as = (o.action_records ++ [a]) ++ as by simp]

theorem reproduce_par_energy (o : Organism) (r : Rng) (n : Nat) :
    (reproduce o r n).2.1.energy = o.energy * 0.7 := by
  simp [reproduce]

theorem reproduce_par_getLast (o : Organism) (r : Rng) (n : Nat) :
    (reproduce o r n).2.1.action_records.getLast? = some "reproduced" := by
  simp only [reproduce]
  exact record_action_getLast _ _

/-! ## Claim theorems -/

/-- C3: for every starting state and every n, `fast_forward(n)` produces
exactly the state reached by n sequential `simulate_generation` calls. -/
theorem fast_forward_eq_iterate (trig : ℚ → ℚ × ℚ) (s : Simulation) (n : Nat) :
    Simulation.fast_forward trig s n = (Simulation.simulate_generation trig)^[n] s := by
  induction n generalizing s with
  | zero => rfl
  | succ n ih =>
    rw [Function.iterate_succ_apply]
    exact ih (Simulation.simulate_generation trig s)

/-- C6: every gene lies in [0, 1] after `OrganismTraits::new` and after
`OrganismTraits::mutate`, whatever the inputs and the draws; construction
saturates out-of-range input to the bounds (clamp is exactly the
max-min saturation) instead of rejecting it. -/
theorem traits_in_range_after_new_and_mutate :
    (∀ v : ℚ, clamp v 0 1 = max 0 (min v 1)) ∧
    (∀ a b c d e f g : ℚ, traitsInRange (OrganismTraits.new a b c d e f g)) ∧
    (∀ (t : OrganismTraits) (rng : Rng) (w : AL), traitsInRange (t.mutate rng w).1) := by
  refine ⟨?_, ?_, ?_⟩
  · intro v
    unfold clamp
    rcases lt_trichotomy v 0 with hv | hv | hv
    · rw [if_pos hv, max_eq_left]
      exact le_trans (min_le_left v 1) hv.le
    · subst hv
      norm_num
    · rw [if_neg (not_lt.mpr hv.le)]
      by_cases hv1 : v > 1
      · rw [if_pos hv1, min_eq_right hv1.le, max_eq_right]
        norm_num
      · rw [if_neg hv1, min_eq_left (not_lt.mp hv1), max_eq_right hv.le]
  · intro a b c d e f g
    exact ⟨clamp_mem _ 0 1 (by norm_num), clamp_mem _ 0 1 (by norm_num),
      clamp_mem _ 0 1 (by norm_num), clamp_mem _ 0 1 (by norm_num),
      clamp_mem _ 0 1 (by norm_num), clamp_mem _ 0 1 (by norm_num),
      clamp_mem _ 0 1 (by norm_num)⟩
  · intro t rng w
    exact ⟨clamp_mem _ 0 1 (by norm_num), clamp_mem _ 0 1 (by norm_num),
      clamp_mem _ 0 1 (by norm_num), clamp_mem _ 0 1 (by norm_num),
      clamp_mem _ 0 1 (by norm_num), clamp_mem _ 0 1 (by norm_num),
      clamp_mem _ 0 1 (by norm_num)⟩

/-- C9: `move_organism` with motility below 0.05 changes nothing (and
consumes no draw), and in every call the y coordinate is left untouched. -/
theorem move_organism_noop_and_fixed_y (trig : ℚ → ℚ × ℚ) (o : Organism) (rng : Rng) :
    (o.traits.motility < 0.05 → Organism.move_organism trig o rng = (o, rng)) ∧
    (Organism.move_organism trig o rng).1.position.y = o.position.y := by
  constructor
  · intro h
    simp only [Organism.move_organism]
    rw [if_pos h]
  · simp only [Organism.move_organism]
    split
    · rfl
    · simp

/-- C9 witness: a motility-0 organism does not move, and its y coordinate is
unchanged. -/
theorem move_organism_noop_witness :
    Organism.move_organism trig0 survivor rng0 = (survivor, rng0) ∧
    (Organism.move_organism trig0 survivor rng0).1.position.y = survivor.position.y :=
  ⟨(move_organism_noop_and_fixed_y trig0 survivor rng0).1 (by norm_num [survivor]),
   (move_organism_noop_and_fixed_y trig0 survivor rng0).2⟩

/-- C10: every organism starts with age 0, an empty action history and an
empty weight map, whether built directly, spawned as offspring during
reproduction, or created by `create_initial_organism`. -/
theorem organisms_start_with_empty_history :
    (∀ (i : String) (p : Position) (sz : ℚ) (t : OrganismTraits) (e : ℚ)
        (g : Nat) (pid : Option String),
      (Organism.new i p sz t e g pid).age = 0 ∧
      (Organism.new i p sz t e g pid).action_records = [] ∧
      (Organism.new i p sz t e g pid).action_weights = []) ∧
    (∀ (o : Organism) (r : Rng) (n : Nat),
      (reproduce o r n).1.age = 0 ∧
      (reproduce o r n).1.action_records = [] ∧
      (reproduce o r n).1.action_weights = []) ∧
    (∀ (s : Simulation) (m ph sz : ℚ),
      (s.create_initial_organism m ph sz).2.age = 0 ∧
      (s.create_initial_organism m ph sz).2.action_records = [] ∧
      (s.create_initial_organism m ph sz).2.action_weights = []) :=
  ⟨fun _ _ _ _ _ _ _ => ⟨rfl, rfl, rfl⟩,
   fun _ _ _ => ⟨rfl, rfl, rfl⟩,
   fun _ _ _ _ => ⟨rfl, rfl, rfl⟩⟩

theorem seedFromEntropy_eq_zero (e : ℚ) (h0 : 0 ≤ e) (h1 : e < 1) :
    seedFromEntropy e = 0 := by
  unfold seedFromEntropy f64ToU64
  rw [if_neg (not_lt.mpr h0)]
  rw [Int.floor_eq_zero_iff.mpr (Set.mem_Ico.mpr ⟨h0, h1⟩)]
  simp

/-- C2: the seed expression truncates the host entropy to a `u64` before the
multiplication, so every value `Math::random()` can return (in [0, 1)) yields
seed 0: two simulations built from any two host entropy values are
identical, and the seed is a fixed constant. -/
theorem simulation_new_seed_ignores_entropy (seedGen : Nat → Rng)
    (t l m e1 e2 : ℚ) (h1 : 0 ≤ e1) (h2 : e1 < 1) (h3 : 0 ≤ e2) (h4 : e2 < 1) :
    Simulation.new seedGen e1 t l m = Simulation.new seedGen e2 t l m := by
  unfold Simulation.new
  rw [seedFromEntropy_eq_zero e1 h1 h2, seedFromEntropy_eq_zero e2 h3 h4]

/-- C2 witness: host entropy 1/4 and 3/4 produce identical simulations. -/
theorem simulation_new_seed_ignores_entropy_witness :
    Simulation.new seedGen0 (1 / 4) 0.5 0.5 0.5 =
      Simulation.new seedGen0 (3 / 4) 0.5 0.5 0.5 :=
  simulation_new_seed_ignores_entropy seedGen0 0.5 0.5 0.5 (1 / 4) (3 / 4)
    (by norm_num) (by norm_num) (by norm_num) (by norm_num)

/-- C7: `can_reproduce` is exactly the conjunction energy ≥ 50 and
reproduction ≥ 0.2; when it is false at the reproduction step — that is,
energy < 50 or reproduction < 0.2 there — the organism contributes only
itself, no offspring, and no reproduction draw is consumed. -/
theorem can_reproduce_gates_offspring (trig : ℚ → ℚ × ℚ) (env : Environment)
    (org : Organism) (rng : Rng) (nid : Nat)
    (h0 : ¬org.energy ≤ 0) (h1 : ¬(stepMetabolism org).energy ≤ 0)
    (h2 : ¬(afterMove trig org rng).1.energy ≤ 0)
    (h3 : (afterPhoto trig env org rng).can_reproduce = false) :
    ((afterPhoto trig env org rng).energy < 50 ∨
      (afterPhoto trig env org rng).traits.reproduction < 0.2) ∧
    processOrganism trig env org rng nid =
      ([afterPhoto trig env org rng], (afterMove trig org rng).2, nid) ∧
    (∀ o : Organism,
      o.can_reproduce = true ↔ 50 ≤ o.energy ∧ 0.2 ≤ o.traits.reproduction) := by
  refine ⟨?_, ?_, ?_⟩
  · by_cases he : 50 ≤ (afterPhoto trig env org rng).energy
    · by_cases hr : (0.2 : ℚ) ≤ (afterPhoto trig env org rng).traits.reproduction
      · exfalso
        simp [Organism.can_reproduce, he, hr] at h3
      · exact Or.inr (not_le.mp hr)
    · exact Or.inl (not_le.mp he)
  · rw [processOrganism_alive trig env org rng nid h0 h1 h2, if_neg (by simp [h3])]
  · intro o
    simp [Organism.can_reproduce, Bool.and_eq_true, decide_eq_true_eq]

/-- C7 witness: a reproduction-0 organism with energy 99.5 at the
reproduction step produces no offspring. -/
theorem can_reproduce_gates_offspring_witness :
    ((afterPhoto trig0 env0 survivor rng0).energy < 50 ∨
      (afterPhoto trig0 env0 survivor rng0).traits.reproduction < 0.2) ∧
    processOrganism trig0 env0 survivor rng0 5 =
      ([afterPhoto trig0 env0 survivor rng0], (afterMove trig0 survivor rng0).2, 5) ∧
    (∀ o : Organism,
      o.can_reproduce = true ↔ 50 ≤ o.energy ∧ 0.2 ≤ o.traits.reproduction) :=
  can_reproduce_gates_offspring trig0 env0 survivor rng0 5
    (by norm_num [survivor])
    (by norm_num [survivor, stepMetabolism])
    (by norm_num [survivor, afterMove, stepMetabolism, Organism.move_organism])
    (by norm_num [survivor, afterPhoto, afterMove, stepMetabolism,
      Organism.move_organism, Organism.process_photosynthesis,
      Organism.can_reproduce, env0, Environment.new, clamp])

/-- C8: a successful reproduction event contributes exactly the offspring
then the parent; the offspring carries 30% of the parent post-photosynthesis
energy, the parent keeps 70%, the offspring generation is the parent
generation plus one, its parent_id is the parent id, its id is the next
allocated id (and the counter advances by one), and the parent records
"reproduced" as its latest action. -/
theorem reproduction_event_effects (trig : ℚ → ℚ × ℚ) (env : Environment)
    (org : Organism) (rng : Rng) (nid : Nat)
    (h0 : ¬org.energy ≤ 0) (h1 : ¬(stepMetabolism org).energy ≤ 0)
    (h2 : ¬(afterMove trig org rng).1.energy ≤ 0)
    (h3 : (afterPhoto trig env org rng).can_reproduce = true)
    (h4 : (afterMove trig org rng).2.next.1 <
      (afterPhoto trig env org rng).reproduction_chance) :
    ∃ off par r,
      processOrganism trig env org rng nid = ([off, par], r, nid + 1) ∧
      off.energy = (afterPhoto trig env org rng).energy * 0.3 ∧
      par.energy = (afterPhoto trig env org rng).energy * 0.7 ∧
      off.generation = org.generation + 1 ∧
      off.parent_id = some org.id ∧
      off.id = mkId nid ∧
      par.action_records.getLast? = some "reproduced" := by
  refine ⟨(reproduce (afterPhoto trig env org rng) (afterMove trig org rng).2.next.2 nid).1,
    (reproduce (afterPhoto trig env org rng) (afterMove trig org rng).2.next.2 nid).2.1,
    (reproduce (afterPhoto trig env org rng) (afterMove trig org rng).2.next.2 nid).2.2,
    ?_, rfl, reproduce_par_energy _ _ _, ?_, ?_, rfl, reproduce_par_getLast _ _ _⟩
  · rw [processOrganism_alive trig env org rng nid h0 h1 h2, if_pos h3, if_pos h4]
  · show (afterPhoto trig env org rng).generation + 1 = org.generation + 1
    rw [afterPhoto_generation]
  · show some (afterPhoto trig env org rng).id = some org.id
    rw [afterPhoto_id]

/-- C8 witness: the spec worked example — a parent reaching the reproduction
step with energy 200 yields offspring energy 60 and parent energy 140, both
in the contribution. -/
theorem reproduction_event_effects_witness :
    (∃ off par r,
      processOrganism trig0 env0 parentRich rng0 7 = ([off, par], r, 7 + 1) ∧
      off.energy = (afterPhoto trig0 env0 parentRich rng0).energy * 0.3 ∧
      par.energy = (afterPhoto trig0 env0 parentRich rng0).energy * 0.7 ∧
      off.generation = parentRich.generation + 1 ∧
      off.parent_id = some parentRich.id ∧
      off.id = mkId 7 ∧
      par.action_records.getLast? = some "reproduced") ∧
    (processOrganism trig0 env0 parentRich rng0 7).1.map Organism.energy = [60, 140] :=
  ⟨reproduction_event_effects trig0 env0 parentRich rng0 7
      (by norm_num [parentRich])
      (by norm_num [parentRich, stepMetabolism])
      (by norm_num [parentRich, afterMove, stepMetabolism, Organism.move_organism])
      (by norm_num [parentRich, afterPhoto, afterMove, stepMetabolism,
        Organism.move_organism, Organism.process_photosynthesis,
        Organism.can_reproduce, env0, Environment.new, clamp])
      (by norm_num [parentRich, afterPhoto, afterMove, stepMetabolism,
        Organism.move_organism, Organism.process_photosynthesis,
        Organism.reproduction_chance, Rng.next, rng0, env0, Environment.new, clamp]),
    by norm_num [processOrganism, stepMetabolism, afterMove, afterPhoto,
      Organism.move_organism, Organism.process_photosynthesis,
      Organism.can_reproduce, Organism.reproduction_chance, reproduce,
      normalizeWeights, OrganismTraits.mutate, mutate_trait, clamp, alIncr,
      alGetOpt, alGet, Organism.record_action, Organism.new, Rng.next, trig0,
      rng0, env0, parentRich, Environment.new, mkId]⟩

/-- C4: every organism of the population returned by `simulate_generation`
arises from processing a source organism none of whose pipeline checkpoints
(pass start, after metabolism, after movement) observed energy ≤ 0. -/
theorem simulate_generation_excludes_dead (trig : ℚ → ℚ × ℚ) (s : Simulation)
    (o : Organism) (ho : o ∈ (Simulation.simulate_generation trig s).organisms) :
    ∃ p r n, p ∈ s.organisms ∧ o ∈ (processOrganism trig s.environment p r n).1 ∧
      ¬(p.energy ≤ 0 ∨ (stepMetabolism p).energy ≤ 0 ∨
        (afterMove trig p r).1.energy ≤ 0) := by
  have ho' : o ∈ (processAll trig s.environment s.organisms s.rng s.next_id).1 := ho
  obtain ⟨p, r, n, hp, hmem⟩ :=
    processAll_mem trig s.environment s.organisms s.rng s.next_id o ho'
  refine ⟨p, r, n, hp, hmem, fun hd => ?_⟩
  rw [processOrganism_dead trig s.environment p r n hd] at hmem
  exact absurd hmem (List.not_mem_nil o)

/-- C4 witness: the survivor of a one-organism generation comes from a source
organism alive at every checkpoint. -/
theorem simulate_generation_excludes_dead_witness :
    ∃ p r n, p ∈ simSurvivor.organisms ∧
      survivorAfter ∈ (processOrganism trig0 simSurvivor.environment p r n).1 ∧
      ¬(p.energy ≤ 0 ∨ (stepMetabolism p).energy ≤ 0 ∨
        (afterMove trig0 p r).1.energy ≤ 0) :=
  simulate_generation_excludes_dead trig0 simSurvivor survivorAfter
    (by norm_num [Simulation.simulate_generation, processAll, processOrganism,
      stepMetabolism, afterMove, afterPhoto, Organism.move_organism,
      Organism.process_photosynthesis, Organism.can_reproduce,
      Organism.reproduction_chance, Rng.next, trig0, rng0, env0, survivor,
      survivorAfter, simSurvivor, Environment.new, clamp])

/-- C1 (amended): in every reproduction event the offspring size is the
parent size times the drawn factor, re-floored at 0.1 by `Organism::new`;
under the pipeline conditions the contribution is offspring then parent. -/
theorem offspring_size_refloored :
    (∀ (o : Organism) (r : Rng) (n : Nat),
      (reproduce o r n).1.size =
        max (o.size *
          (0.8 + (o.traits.mutate r (normalizeWeights o.action_records)).2.next.2.next.2.next.1 * 0.4))
          0.1) ∧
    (∀ (trig : ℚ → ℚ × ℚ) (env : Environment) (org : Organism) (rng : Rng) (nid : Nat),
      ¬org.energy ≤ 0 → ¬(stepMetabolism org).energy ≤ 0 →
      ¬(afterMove trig org rng).1.energy ≤ 0 →
      (afterPhoto trig env org rng).can_reproduce = true →
      (afterMove trig org rng).2.next.1 < (afterPhoto trig env org rng).reproduction_chance →
      (processOrganism trig env org rng nid).1 =
        [(reproduce (afterPhoto trig env org rng) (afterMove trig org rng).2.next.2 nid).1,
          (reproduce (afterPhoto trig env org rng) (afterMove trig org rng).2.next.2 nid).2.1]) := by
  constructor
  · intro o r n
    rfl
  · intro trig env org rng nid h0 h1 h2 h3 h4
    rw [processOrganism_alive trig env org rng nid h0 h1 h2, if_pos h3, if_pos h4]

/-- C1 counterexample: a minimum-size parent (size 0.1) reproduces under an
all-zero draw stream; parent size times the drawn factor is 0.08 < 0.1, yet
every organism of the result has size exactly 0.1 — the offspring was
re-floored, so its size does not equal parent size times the factor. -/
theorem offspring_size_below_floor_cex :
    (Simulation.simulate_generation trig0 simTiny).organisms.map Organism.size
      = [0.1, 0.1] ∧
    parentTiny.size * (0.8 + 0 * 0.4) < 0.1 := by
  constructor
  · norm_num [Simulation.simulate_generation, processAll, processOrganism,
      stepMetabolism, afterMove, afterPhoto, Organism.move_organism,
      Organism.process_photosynthesis, Organism.can_reproduce,
      Organism.reproduction_chance, reproduce, normalizeWeights,
      OrganismTraits.mutate, mutate_trait, clamp, alIncr, alGetOpt, alGet,
      Organism.record_action, Organism.new, Rng.next, trig0, rng0, env0,
      parentTiny, simTiny, Environment.new, mkId]
  · norm_num [parentTiny]

/-- C5: for every sequence of `record_action` calls on a fresh organism, the
weight map equals the multiset counts of the current history window, the
history never exceeds 20 entries, and it is exactly the suffix of the last
at-most-20 recorded actions (the oldest evicted first). -/
theorem action_weights_match_history (i : String) (p : Position) (sz : ℚ)
    (t : OrganismTraits) (e : ℚ) (g : Nat) (pid : Option String)
    (actions : List String) :
    weightsMatch
      (actions.foldl Organism.record_action (Organism.new i p sz t e g pid)).action_records
      (actions.foldl Organism.record_action (Organism.new i p sz t e g pid)).action_weights ∧
    (actions.foldl Organism.record_action (Organism.new i p sz t e g pid)).action_records.length ≤ 20 ∧
    (actions.foldl Organism.record_action (Organism.new i p sz t e g pid)).action_records =
      actions.drop (actions.length - 20) := by
  have base1 : (alKeys (Organism.new i p sz t e g pid).action_weights).Nodup := by
    simp [Organism.new, alKeys]
  have base2 : weightsMatch (Organism.new i p sz t e g pid).action_records
      (Organism.new i p sz t e g pid).action_weights := by
    intro k
    simp [Organism.new, alGetOpt]
  have base3 : (Organism.new i p sz t e g pid).action_records.length ≤ 20 := by
    simp [Organism.new]
  obtain ⟨g1, g2, g3⟩ := foldl_record_action_inv actions _ base1 base2 base3
  refine ⟨g2, g3, ?_⟩
  have hs := foldl_record_action_suffix actions _ base3
  simpa [Organism.new] using hs
